import Mathlib

/-!
Verification of the MLB blowout checker (`mlb_blowout.py`).

The script's core is `BlowoutChecker.is_blowout`, which reads a game's
linescore (a JSON-shaped dictionary), sums home and away runs over the first
six innings, and decides whether the game is a blowout: the absolute run
differential through inning 6 must be at least `RUN_THRESHOLD` (5) and must
never drop below it in any later inning.

We embed the relevant Python values as a JSON-like inductive `JVal` and model
the dictionary/list operations the code uses (`dict.get` with a default,
list slicing, truthiness, integer addition inside `sum`) together with the
Python exceptions they can raise (`KeyError`, `TypeError`, `AttributeError`).
`is_blowout` wraps its body in `try ... except (KeyError, TypeError)`, so the
embedding keeps the body (`is_blowout_body`) separate from the wrapper
(`is_blowout`), which catches exactly those two exception kinds.

On well-formed linescores (a list of inning dictionaries whose `home`/`away`
entries, when present, carry an integer `runs` field) the evaluator is shown
to agree with a pure function `isBlowoutPure` over `List InningLine`; the
behavioural claims are proved through that bridge.
-/

/-- Kinds of Python exceptions relevant to the code paths of `is_blowout`:
`except (KeyError, TypeError)` catches the first two, while an
`AttributeError` (raised by calling `.get` on a non-dictionary value)
propagates to the caller. -/
inductive PyErr where
  | keyError
  | typeError
  | attributeError
deriving DecidableEq, Repr

/-- JSON-shaped Python values as delivered by `response.json()`: numbers,
strings, booleans, `None`, dictionaries and lists. -/
inductive JVal where
  | num (n : Int)
  | str (s : String)
  | bool (b : Bool)
  | null
  | obj (fields : List (String × JVal))
  | arr (elems : List JVal)

/-- Python `v.get(key, default)`: on a dictionary, return the entry for
`key` or the default; on any other value `.get` does not exist and an
`AttributeError` is raised. -/
def pyGet (v : JVal) (key : String) (default : JVal) : Except PyErr JVal :=
  match v with
  | .obj fields => .ok ((fields.lookup key).getD default)
  | _ => .error .attributeError

/-- Python truthiness, as used by `if not innings:` at line 117. -/
def pyTruthy : JVal → Bool
  | .num n => n != 0
  | .str s => s != ""
  | .bool b => b
  | .null => false
  | .obj fields => !fields.isEmpty
  | .arr elems => !elems.isEmpty

/-- Python slice `v[:n]`, materialised as the list of elements the
subsequent `for` generator iterates over: lists slice to lists, strings
slice to strings (iterated as one-character strings); every other value
raises a `TypeError` (`unhashable type: slice` for dictionaries, `not
subscriptable` for the rest). -/
def pySliceTake (v : JVal) (n : Nat) : Except PyErr (List JVal) :=
  match v with
  | .arr elems => .ok (elems.take n)
  | .str s => .ok ((s.toList.take n).map fun c => .str (String.singleton c))
  | _ => .error .typeError

/-- Python slice `v[n:]`, under the same conventions as `pySliceTake`. -/
def pySliceDrop (v : JVal) (n : Nat) : Except PyErr (List JVal) :=
  match v with
  | .arr elems => .ok (elems.drop n)
  | .str s => .ok ((s.toList.drop n).map fun c => .str (String.singleton c))
  | _ => .error .typeError

/-- Adding a fetched runs value to an integer accumulator, as `sum` and
`+=` do: integers add, booleans count as 0/1, anything else raises
`TypeError` (unsupported operand type). -/
def pyAddNum (acc : Int) (v : JVal) : Except PyErr Int :=
  match v with
  | .num n => .ok (acc + n)
  | .bool b => .ok (acc + if b then 1 else 0)
  | _ => .error .typeError

/-- `CONFIG['RUN_THRESHOLD']`: minimum run difference for a blowout. -/
def RUN_THRESHOLD : Int := 5

/-- `inning.get(team, {}).get("runs", 0)` (lines 121-122 and 138-139):
a missing team entry defaults to the empty dictionary, a missing `runs`
entry defaults to `0`. -/
def getTeamRuns (inning : JVal) (team : String) : Except PyErr JVal := do
  let t ← pyGet inning team (.obj [])
  pyGet t "runs" (.num 0)

/-- `sum(i.get(team, {}).get("runs", 0) for i in innings)` starting from an
accumulator: terms are fetched and added one at a time, as Python's `sum`
consumes the generator. -/
def sumRuns (innings : List JVal) (team : String) (acc : Int) :
    Except PyErr Int :=
  match innings with
  | [] => .ok acc
  | i :: rest => do
      let v ← getTeamRuns i team
      let acc' ← pyAddNum acc v
      sumRuns rest team acc'

/-- The analysis dictionary built at lines 125-130: through-6 totals, the
absolute through-6 lead, and the `maintained_lead` flag. -/
def mkAnalysis (cumHome cumAway : Int) (maintained : Bool) : JVal :=
  .obj [("through_6_home", .num cumHome),
        ("through_6_away", .num cumAway),
        ("through_6_lead", .num |cumHome - cumAway|),
        ("maintained_lead", .bool maintained)]

/-- The `for inning in innings[6:]` loop of lines 137-142: accumulate the
running totals (`cumHome`, `cumAway`); as soon as the absolute lead drops
below the threshold, set `maintained_lead` to `False` and return
`(False, analysis)`; if the loop completes, return `(True, analysis)`.
The through-6 values frozen in the analysis dictionary are carried as
`ch6`/`ca6`. -/
def scanInnings (rest : List JVal) (cumHome cumAway ch6 ca6 : Int) :
    Except PyErr (Bool × JVal) :=
  match rest with
  | [] => .ok (true, mkAnalysis ch6 ca6 true)
  | i :: rest' => do
      let vh ← getTeamRuns i "home"
      let cumHome' ← pyAddNum cumHome vh
      let va ← getTeamRuns i "away"
      let cumAway' ← pyAddNum cumAway va
      if |cumHome' - cumAway'| < RUN_THRESHOLD then
        .ok (false, mkAnalysis ch6 ca6 false)
      else
        scanInnings rest' cumHome' cumAway' ch6 ca6

/-- The body of `BlowoutChecker.is_blowout` (lines 113-144), before the
`except` clause: read the linescore and its innings, return `(False, {})`
when no innings are recorded, sum runs over the first six innings, return
`(False, analysis)` when the through-6 lead is below the threshold, and
otherwise scan the remaining innings. -/
def is_blowout_body (game : JVal) : Except PyErr (Bool × JVal) := do
  let linescore ← pyGet game "linescore" (.obj [])
  let innings ← pyGet linescore "innings" (.arr [])
  if pyTruthy innings = false then
    .ok (false, .obj [])
  else do
    let first6 ← pySliceTake innings 6
    let cumHome ← sumRuns first6 "home" 0
    let cumAway ← sumRuns first6 "away" 0
    if |cumHome - cumAway| < RUN_THRESHOLD then
      .ok (false, mkAnalysis cumHome cumAway true)
    else do
      let rest ← pySliceDrop innings 6
      scanInnings rest cumHome cumAway cumHome cumAway

/-- `BlowoutChecker.is_blowout` (lines 112-147): the body wrapped in
`try ... except (KeyError, TypeError)`, which returns `(False, {})` for
those two exception kinds; any other exception (in particular
`AttributeError`) propagates to the caller. -/
def is_blowout (game : JVal) : Except PyErr (Bool × JVal) :=
  match is_blowout_body game with
  | .error .keyError => .ok (false, .obj [])
  | .error .typeError => .ok (false, .obj [])
  | r => r

/-! ### Well-formed linescores and the pure evaluator -/

/-- One inning of a well-formed linescore: the per-team runs value, or
`none` when the team's entry is absent from the inning dictionary. -/
structure InningLine where
  home : Option Int
  away : Option Int

/-- The defaulting rule of `.get(team, {}).get("runs", 0)`: an absent
entry counts as zero runs. -/
def runsOrZero : Option Int → Int
  | some n => n
  | none => 0

/-- Encode one team's entry of an inning dictionary: present runs become
`{"runs": n}` under the team's key, an absent value contributes no key. -/
def teamField (team : String) : Option Int → List (String × JVal)
  | some n => [(team, .obj [("runs", .num n)])]
  | none => []

/-- Encode one inning as the dictionary the MLB linescore feed delivers. -/
def mkInning (i : InningLine) : JVal :=
  .obj (teamField "home" i.home ++ teamField "away" i.away)

/-- Encode a whole game dictionary carrying a well-formed linescore. -/
def mkGame (l : List InningLine) : JVal :=
  .obj [("linescore", .obj [("innings", .arr (l.map mkInning))])]

/-- Cumulative home runs of a list of innings (missing entries as zero). -/
def homeSum (l : List InningLine) : Int :=
  (l.map fun i => runsOrZero i.home).sum

/-- Cumulative away runs of a list of innings (missing entries as zero). -/
def awaySum (l : List InningLine) : Int :=
  (l.map fun i => runsOrZero i.away).sum

/-- Absolute lead after the first `k` innings of `l`. -/
def leadThrough (l : List InningLine) (k : Nat) : Int :=
  |homeSum (l.take k) - awaySum (l.take k)|

/-- Absolute lead after extending running totals `ch`/`ca` by the innings
of `p`; the invariant quantity tracked by the post-6 scan. -/
def afterLead (ch ca : Int) (p : List InningLine) : Int :=
  |ch + homeSum p - (ca + awaySum p)|

/-- Pure counterpart of the post-6 scan: `true` when the running absolute
lead stays at or above the threshold after every scanned inning. -/
def scanOk : List InningLine → Int → Int → Bool
  | [], _, _ => true
  | i :: rest, cumHome, cumAway =>
    let cumHome' := cumHome + runsOrZero i.home
    let cumAway' := cumAway + runsOrZero i.away
    if |cumHome' - cumAway'| < RUN_THRESHOLD then false
    else scanOk rest cumHome' cumAway'

/-- Pure counterpart of `is_blowout` on a well-formed linescore. -/
def isBlowoutPure (l : List InningLine) : Bool × JVal :=
  if l.isEmpty then (false, .obj [])
  else
    let ch := homeSum (l.take 6)
    let ca := awaySum (l.take 6)
    if |ch - ca| < RUN_THRESHOLD then (false, mkAnalysis ch ca true)
    else if scanOk (l.drop 6) ch ca then (true, mkAnalysis ch ca true)
    else (false, mkAnalysis ch ca false)

/-- Replace absent per-team runs entries by an explicit zero. -/
def fillZeros (i : InningLine) : InningLine :=
  ⟨some (runsOrZero i.home), some (runsOrZero i.away)⟩

/-- Field lookup in an analysis dictionary. -/
def aField (a : JVal) (k : String) : Option JVal :=
  match a with
  | .obj fields => fields.lookup k
  | _ => none

/-- Whether an evaluator result carries the empty analysis dictionary. -/
def emptyAnalysisResult : Except PyErr (Bool × JVal) → Bool
  | .ok (_, .obj []) => true
  | _ => false

/-! ### The per-game branch of `check_blowouts` -/

/-- Update a dictionary's field list, as Python's `d[k] = x` does: replace
the entry in place when the key exists, append it otherwise. -/
def setField : List (String × JVal) → String → JVal → List (String × JVal)
  | [], k, x => [(k, x)]
  | (k', v') :: rest, k, x =>
    if k' == k then (k, x) :: rest else (k', v') :: setField rest k x

/-- Python `v[k] = x`: assignment on a dictionary updates it; on any other
value it raises a `TypeError`. -/
def pySetE (v : JVal) (k : String) (x : JVal) : Except PyErr JVal :=
  match v with
  | .obj fields => .ok (.obj (setField fields k x))
  | _ => .error .typeError

/-- `game.get("teams", {}).get(side, {}).get("team", {}).get("name",
"Unknown")` (lines 178-179). -/
def getTeamName (game : JVal) (side : String) : Except PyErr JVal := do
  let teams ← pyGet game "teams" (.obj [])
  let t ← pyGet teams side (.obj [])
  let tm ← pyGet t "team" (.obj [])
  pyGet tm "name" (.str "Unknown")

/-- `game.get("teams", {}).get(side, {}).get("score", 0)` (lines 180-181). -/
def getTeamScore (game : JVal) (side : String) : Except PyErr JVal := do
  let teams ← pyGet game "teams" (.obj [])
  let t ← pyGet teams side (.obj [])
  pyGet t "score" (.num 0)

/-- `game.get("status", {}).get("codedGameState")` (line 184). -/
def getGameStatus (game : JVal) : Except PyErr JVal := do
  let st ← pyGet game "status" (.obj [])
  pyGet st "codedGameState" .null

/-- The comparison `status != "F"` of line 185, negated: a Python `==`
between a non-string and the string `"F"` is simply `False`, never an
error. -/
def isFinalCode : JVal → Bool
  | .str s => s == "F"
  | _ => false

/-- The dictionary handed to `update_supabase` for one game
(lines 186-196 and 211-221). -/
structure GameRecord where
  game_pk : JVal
  date : String
  away_team : JVal
  home_team : JVal
  away_score : JVal
  home_score : JVal
  status : String
  is_blowout : Bool
  analysis : JVal

/-- What one iteration of the `for game in games` loop does besides
logging: the record persisted (if any), whether the per-game detail feed
was fetched, and whether the blowout evaluator ran. -/
structure GameOutcome where
  persisted : Option GameRecord
  detailFetched : Bool
  evaluatorCalled : Bool

/-- One iteration of the `for game in games` loop of `check_blowouts`
(lines 172-225): read the game's identifier, team names, scores and coded
status; when the status is not `"F"`, persist an "In Progress" summary
with `is_blowout = False` and an empty analysis and move on without
fetching the detail feed; otherwise fetch the detail feed (`fetch`
returns `none` on a request error), graft its linescore onto the game and
run `is_blowout`. -/
def processGame (fetch : JVal → Option JVal) (date : String) (game : JVal) :
    Except PyErr GameOutcome := do
  let gamePk ← pyGet game "gamePk" .null
  if pyTruthy gamePk = false then
    .ok ⟨none, false, false⟩
  else do
    let awayTeam ← getTeamName game "away"
    let homeTeam ← getTeamName game "home"
    let awayScore ← getTeamScore game "away"
    let homeScore ← getTeamScore game "home"
    let status ← getGameStatus game
    if isFinalCode status = false then
      .ok ⟨some ⟨gamePk, date, awayTeam, homeTeam, awayScore, homeScore,
        "In Progress", false, .obj []⟩, false, false⟩
    else
      match fetch gamePk with
      | none => .ok ⟨none, true, false⟩
      | some detailed =>
        if pyTruthy detailed = false then
          .ok ⟨none, true, false⟩
        else do
          let live ← pyGet detailed "liveData" (.obj [])
          let ls ← pyGet live "linescore" (.obj [])
          let game2 ← pySetE game "linescore" ls
          let r ← is_blowout game2
          .ok ⟨some ⟨gamePk, date, awayTeam, homeTeam, awayScore, homeScore,
            "Final", r.1, r.2⟩, true, true⟩

/-- A schedule-game dictionary of the shape `check_blowouts` reads. -/
def mkScheduleGame (pk awayName homeName awayScore homeScore coded : JVal) :
    JVal :=
  .obj [("gamePk", pk),
        ("teams", .obj
          [("away", .obj [("team", .obj [("name", awayName)]),
                          ("score", awayScore)]),
           ("home", .obj [("team", .obj [("name", homeName)]),
                          ("score", homeScore)])]),
        ("status", .obj [("codedGameState", coded)])]

/-! ### Concrete inputs used to separate behaviours -/

/-- A game whose innings list holds a bare number where an inning
dictionary is expected: `{"linescore": {"innings": [5]}}`. -/
def gBadInning : JVal :=
  .obj [("linescore", .obj [("innings", .arr [.num 5])])]

/-- A game whose `innings` entry is a number instead of a list:
`{"linescore": {"innings": 3}}`. -/
def gBadInnings : JVal :=
  .obj [("linescore", .obj [("innings", .num 3)])]

/-- A game whose single inning carries a malformed (string-valued) home
runs field: `{"linescore": {"innings": [{"home": {"runs": "7"},
"away": {"runs": 0}}]}}`. -/
def gMalformedRuns : JVal :=
  .obj [("linescore", .obj [("innings",
    .arr [.obj [("home", .obj [("runs", .str "7")]),
                ("away", .obj [("runs", .num 0)])]])])]

/-! ### Evaluating the evaluator on well-formed linescores -/

theorem getTeamRuns_mkInning_home (i : InningLine) :
    getTeamRuns (mkInning i) "home" = .ok (.num (runsOrZero i.home)) := by
  obtain ⟨h, a⟩ := i
  cases h <;> cases a <;> rfl

theorem getTeamRuns_mkInning_away (i : InningLine) :
    getTeamRuns (mkInning i) "away" = .ok (.num (runsOrZero i.away)) := by
  obtain ⟨h, a⟩ := i
  cases h <;> cases a <;> rfl

theorem sumRuns_home (l : List InningLine) (acc : Int) :
    sumRuns (l.map mkInning) "home" acc = .ok (acc + homeSum l) := by
  induction l generalizing acc with
  | nil => simp [sumRuns, homeSum]
  | cons i t ih =>
    simp [sumRuns, getTeamRuns_mkInning_home, Bind.bind, Except.bind, pyAddNum,
      ih, homeSum, add_assoc]

theorem sumRuns_away (l : List InningLine) (acc : Int) :
    sumRuns (l.map mkInning) "away" acc = .ok (acc + awaySum l) := by
  induction l generalizing acc with
  | nil => simp [sumRuns, awaySum]
  | cons i t ih =>
    simp [sumRuns, getTeamRuns_mkInning_away, Bind.bind, Except.bind, pyAddNum,
      ih, awaySum, add_assoc]

theorem scanInnings_map (l : List InningLine) (ch ca ch6 ca6 : Int) :
    scanInnings (l.map mkInning) ch ca ch6 ca6 =
      .ok (if scanOk l ch ca then (true, mkAnalysis ch6 ca6 true)
           else (false, mkAnalysis ch6 ca6 false)) := by
  induction l generalizing ch ca with
  | nil => simp [scanInnings, scanOk]
  | cons i t ih =>
    simp only [List.map_cons, scanInnings, getTeamRuns_mkInning_home,
      getTeamRuns_mkInning_away, Bind.bind, Except.bind, pyAddNum, scanOk]
    split
    · rfl
    · exact ih _ _

theorem is_blowout_body_mkGame (l : List InningLine) :
    is_blowout_body (mkGame l) = .ok (isBlowoutPure l) := by
  cases l with
  | nil => rfl
  | cons i t =>
    have htake : (mkInning i :: t.map mkInning).take 6 =
        ((i :: t).take 6).map mkInning := by
      rw [← List.map_cons, ← List.map_take]
    have hdrop : (mkInning i :: t.map mkInning).drop 6 =
        ((i :: t).drop 6).map mkInning := by
      rw [← List.map_cons, ← List.map_drop]
    have hbody : is_blowout_body (mkGame (i :: t)) =
        (do
          let cumHome ← sumRuns ((mkInning i :: t.map mkInning).take 6) "home" 0
          let cumAway ← sumRuns ((mkInning i :: t.map mkInning).take 6) "away" 0
          if |cumHome - cumAway| < RUN_THRESHOLD then
            Except.ok (false, mkAnalysis cumHome cumAway true)
          else
            scanInnings ((mkInning i :: t.map mkInning).drop 6) cumHome cumAway
              cumHome cumAway) := rfl
    rw [hbody, htake, hdrop]
    simp only [sumRuns_home, sumRuns_away, Bind.bind, Except.bind, zero_add,
      scanInnings_map]
    simp only [isBlowoutPure, List.isEmpty_cons, Bool.false_eq_true, if_false]
    split <;> rfl

theorem is_blowout_mkGame (l : List InningLine) :
    is_blowout (mkGame l) = .ok (isBlowoutPure l) := by
  rw [is_blowout, is_blowout_body_mkGame]

/-! ### Arithmetic of cumulative sums and leads -/

theorem homeSum_nil : homeSum [] = 0 := rfl

theorem awaySum_nil : awaySum [] = 0 := rfl

theorem homeSum_cons (i : InningLine) (l : List InningLine) :
    homeSum (i :: l) = runsOrZero i.home + homeSum l := by
  simp [homeSum]

theorem awaySum_cons (i : InningLine) (l : List InningLine) :
    awaySum (i :: l) = runsOrZero i.away + awaySum l := by
  simp [awaySum]

theorem homeSum_append (p q : List InningLine) :
    homeSum (p ++ q) = homeSum p + homeSum q := by
  simp [homeSum]

theorem awaySum_append (p q : List InningLine) :
    awaySum (p ++ q) = awaySum p + awaySum q := by
  simp [awaySum]

theorem afterLead_nil (ch ca : Int) : afterLead ch ca [] = |ch - ca| := by
  simp [afterLead, homeSum_nil, awaySum_nil]

theorem afterLead_cons (ch ca : Int) (i : InningLine) (p : List InningLine) :
    afterLead ch ca (i :: p) =
      afterLead (ch + runsOrZero i.home) (ca + runsOrZero i.away) p := by
  unfold afterLead
  rw [homeSum_cons, awaySum_cons]
  congr 1
  ring

theorem leadThrough_eq_afterLead (l : List InningLine) (k : Nat)
    (hk : 6 ≤ k) :
    leadThrough l k =
      afterLead (homeSum (l.take 6)) (awaySum (l.take 6))
        ((l.drop 6).take (k - 6)) := by
  unfold leadThrough afterLead
  have h : l.take k = l.take 6 ++ (l.drop 6).take (k - 6) := by
    conv_lhs => rw [show k = 6 + (k - 6) by omega]
    exact List.take_add l 6 (k - 6)
  rw [h, homeSum_append, awaySum_append]

/-! ### Characterising the post-6 scan -/

theorem scanOk_true_iff (r : List InningLine) (ch ca : Int) :
    scanOk r ch ca = true ↔
      ∀ k, 1 ≤ k → k ≤ r.length →
        RUN_THRESHOLD ≤ afterLead ch ca (r.take k) := by
  induction r generalizing ch ca with
  | nil =>
    simp only [scanOk, List.length_nil, true_iff]
    intro k hk1 hk2
    omega
  | cons i r ih =>
    simp only [scanOk]
    by_cases h : |ch + runsOrZero i.home - (ca + runsOrZero i.away)| <
        RUN_THRESHOLD
    · rw [if_pos h]
      constructor
      · intro hf; cases hf
      · intro hall
        have h1 := hall 1 (le_refl 1) (by simp)
        rw [List.take_succ_cons, List.take_zero, afterLead_cons,
          afterLead_nil] at h1
        exact absurd h1 (not_le.mpr h)
    · rw [if_neg h, ih]
      constructor
      · intro hall k hk1 hk2
        match k with
        | 1 =>
          rw [List.take_succ_cons, List.take_zero, afterLead_cons,
            afterLead_nil]
          exact not_lt.mp h
        | (j + 2) =>
          rw [List.take_succ_cons, afterLead_cons]
          exact hall (j + 1) (by omega) (by simpa using hk2)
      · intro hall k hk1 hk2
        have := hall (k + 1) (by omega) (by simp; omega)
        rwa [List.take_succ_cons, afterLead_cons] at this

theorem scanOk_append_false (p q : List InningLine) (ch ca : Int)
    (h : scanOk p ch ca = false) : scanOk (p ++ q) ch ca = false := by
  induction p generalizing ch ca with
  | nil => cases h
  | cons i p ih =>
    rw [List.cons_append]
    simp only [scanOk] at h ⊢
    by_cases hc : |ch + runsOrZero i.home - (ca + runsOrZero i.away)| <
        RUN_THRESHOLD
    · rw [if_pos hc]
    · rw [if_neg hc] at h ⊢
      exact ih _ _ h

theorem scanOk_false_of_viol (p : List InningLine) (ch ca : Int)
    (hne : p ≠ []) (hviol : afterLead ch ca p < RUN_THRESHOLD) :
    scanOk p ch ca = false := by
  cases hb : scanOk p ch ca with
  | false => rfl
  | true =>
    exfalso
    have hlen : 1 ≤ p.length := List.length_pos.mpr hne
    have := (scanOk_true_iff p ch ca).mp hb p.length hlen (le_refl _)
    rw [List.take_length] at this
    exact absurd hviol (not_lt.mpr this)

/-! ### Case equations for the pure evaluator -/

theorem leadThrough_six (l : List InningLine) :
    leadThrough l 6 = |homeSum (l.take 6) - awaySum (l.take 6)| := rfl

theorem isBlowoutPure_low (l : List InningLine) (h1 : l ≠ [])
    (h2 : leadThrough l 6 < RUN_THRESHOLD) :
    isBlowoutPure l =
      (false, mkAnalysis (homeSum (l.take 6)) (awaySum (l.take 6)) true) := by
  unfold isBlowoutPure
  rw [if_neg (by simp [h1]), if_pos (by rw [← leadThrough_six]; exact h2)]

theorem isBlowoutPure_scan_true (l : List InningLine) (h1 : l ≠ [])
    (h2 : RUN_THRESHOLD ≤ leadThrough l 6)
    (h3 : scanOk (l.drop 6) (homeSum (l.take 6)) (awaySum (l.take 6)) =
      true) :
    isBlowoutPure l =
      (true, mkAnalysis (homeSum (l.take 6)) (awaySum (l.take 6)) true) := by
  unfold isBlowoutPure
  rw [if_neg (by simp [h1]),
    if_neg (by rw [← leadThrough_six]; exact not_lt.mpr h2), if_pos h3]

theorem isBlowoutPure_scan_false (l : List InningLine) (h1 : l ≠ [])
    (h2 : RUN_THRESHOLD ≤ leadThrough l 6)
    (h3 : scanOk (l.drop 6) (homeSum (l.take 6)) (awaySum (l.take 6)) =
      false) :
    isBlowoutPure l =
      (false, mkAnalysis (homeSum (l.take 6)) (awaySum (l.take 6))
        false) := by
  unfold isBlowoutPure
  rw [if_neg (by simp [h1]),
    if_neg (by rw [← leadThrough_six]; exact not_lt.mpr h2),
    if_neg (by rw [h3]; exact Bool.false_ne_true)]

theorem isBlowoutPure_fst_true_iff (l : List InningLine) :
    (isBlowoutPure l).1 = true ↔
      l ≠ [] ∧ RUN_THRESHOLD ≤ leadThrough l 6 ∧
        ∀ k, 6 < k → k ≤ l.length → RUN_THRESHOLD ≤ leadThrough l k := by
  by_cases h1 : l = []
  · subst h1
    simp [isBlowoutPure]
  · by_cases h2 : leadThrough l 6 < RUN_THRESHOLD
    · rw [isBlowoutPure_low l h1 h2]
      simp only [Bool.false_eq_true, false_iff]
      rintro ⟨-, hle, -⟩
      exact absurd h2 (not_lt.mpr hle)
    · have h2' := not_lt.mp h2
      by_cases h3 : scanOk (l.drop 6) (homeSum (l.take 6))
          (awaySum (l.take 6)) = true
      · rw [isBlowoutPure_scan_true l h1 h2' h3]
        simp only [true_iff]
        refine ⟨h1, h2', ?_⟩
        intro k hk6 hkl
        rw [leadThrough_eq_afterLead l k (by omega)]
        refine (scanOk_true_iff _ _ _).mp h3 (k - 6) (by omega) ?_
        rw [List.length_drop]
        omega
      · rw [isBlowoutPure_scan_false l h1 h2'
          (Bool.not_eq_true _ ▸ eq_false_of_ne_true h3)]
        simp only [Bool.false_eq_true, false_iff]
        rintro ⟨-, -, hall⟩
        refine h3 ((scanOk_true_iff _ _ _).mpr ?_)
        intro k hk1 hk2
        rw [List.length_drop] at hk2
        have := hall (k + 6) (by omega) (by omega)
        rwa [leadThrough_eq_afterLead l (k + 6) (by omega),
          Nat.add_sub_cancel] at this

theorem isBlowoutPure_snd (l : List InningLine) (h : l ≠ []) :
    ∃ m, (isBlowoutPure l).2 =
      mkAnalysis (homeSum (l.take 6)) (awaySum (l.take 6)) m := by
  unfold isBlowoutPure
  rw [if_neg (by simp [h])]
  dsimp only
  split
  · exact ⟨true, rfl⟩
  split
  · exact ⟨true, rfl⟩
  · exact ⟨false, rfl⟩

/-! ### Filling in absent run fields -/

theorem mapFill_isEmpty (l : List InningLine) :
    (l.map fillZeros).isEmpty = l.isEmpty := by cases l <;> rfl

theorem homeSum_fill (l : List InningLine) :
    homeSum (l.map fillZeros) = homeSum l := by
  induction l with
  | nil => rfl
  | cons i t ih => simp [List.map_cons, homeSum_cons, fillZeros, runsOrZero, ih]

theorem awaySum_fill (l : List InningLine) :
    awaySum (l.map fillZeros) = awaySum l := by
  induction l with
  | nil => rfl
  | cons i t ih => simp [List.map_cons, awaySum_cons, fillZeros, runsOrZero, ih]

theorem scanOk_fill (p : List InningLine) (ch ca : Int) :
    scanOk (p.map fillZeros) ch ca = scanOk p ch ca := by
  induction p generalizing ch ca with
  | nil => rfl
  | cons i t ih =>
    simp only [List.map_cons, scanOk, fillZeros, runsOrZero]
    split <;> [rfl; exact ih _ _]

/-! ### Shape of the analysis record on arbitrary inputs -/

theorem scanInnings_shape (rest : List JVal) (ch ca ch6 ca6 : Int)
    (b : Bool) (a : JVal)
    (h : scanInnings rest ch ca ch6 ca6 = .ok (b, a)) :
    (b = true ∧ a = mkAnalysis ch6 ca6 true) ∨
      (b = false ∧ a = mkAnalysis ch6 ca6 false) := by
  induction rest generalizing ch ca with
  | nil =>
    rw [scanInnings] at h
    simp only [Except.ok.injEq, Prod.mk.injEq] at h
    exact Or.inl ⟨h.1.symm, h.2.symm⟩
  | cons i r ih =>
    rw [scanInnings] at h
    simp only [Bind.bind, Except.bind] at h
    split at h
    · exact Except.noConfusion h
    split at h
    · exact Except.noConfusion h
    split at h
    · exact Except.noConfusion h
    split at h
    · exact Except.noConfusion h
    split at h
    · simp only [Except.ok.injEq, Prod.mk.injEq] at h
      exact Or.inr ⟨h.1.symm, h.2.symm⟩
    · exact ih _ _ h

theorem is_blowout_body_shape (g : JVal) (b : Bool) (a : JVal)
    (h : is_blowout_body g = .ok (b, a)) :
    (b = false ∧ a = .obj []) ∨
      ∃ ch ca m, a = mkAnalysis ch ca m ∧ (b = true → m = true) := by
  rw [is_blowout_body] at h
  simp only [Bind.bind, Except.bind] at h
  split at h
  · exact Except.noConfusion h
  split at h
  · exact Except.noConfusion h
  split at h
  · simp only [Except.ok.injEq, Prod.mk.injEq] at h
    exact Or.inl ⟨h.1.symm, h.2.symm⟩
  split at h
  · exact Except.noConfusion h
  split at h
  · exact Except.noConfusion h
  split at h
  · exact Except.noConfusion h
  split at h
  · simp only [Except.ok.injEq, Prod.mk.injEq] at h
    exact Or.inr ⟨_, _, true, h.2.symm, fun _ => rfl⟩
  split at h
  · exact Except.noConfusion h
  · rcases scanInnings_shape _ _ _ _ _ _ _ h with ⟨hb, ha⟩ | ⟨hb, ha⟩
    · exact Or.inr ⟨_, _, true, ha, fun _ => rfl⟩
    · refine Or.inr ⟨_, _, false, ha, fun hbt => ?_⟩
      rw [hb] at hbt
      cases hbt

theorem aField_home (ch ca : Int) (m : Bool) :
    aField (mkAnalysis ch ca m) "through_6_home" = some (.num ch) := rfl

theorem aField_away (ch ca : Int) (m : Bool) :
    aField (mkAnalysis ch ca m) "through_6_away" = some (.num ca) := rfl

theorem aField_lead (ch ca : Int) (m : Bool) :
    aField (mkAnalysis ch ca m) "through_6_lead" = some (.num |ch - ca|) :=
  rfl

theorem aField_maintained (ch ca : Int) (m : Bool) :
    aField (mkAnalysis ch ca m) "maintained_lead" = some (.bool m) := rfl

theorem mkAnalysis_ne_empty (ch ca : Int) (m : Bool) :
    mkAnalysis ch ca m ≠ JVal.obj [] :=
  fun h => List.noConfusion (JVal.obj.inj h)

/-! ### The claims -/

/-- Claim C1: for every inning sequence, the boolean result of the Blowout
Evaluator is `true` if and only if the sequence is non-empty, the absolute
difference of cumulative home and away runs over the first `min 6 length`
innings is at least 5, and after every later inning the absolute difference
of the running cumulative totals remains at least 5. (Taking the first 6
elements of a shorter list takes the whole list, so `leadThrough l 6` is
the lead over the first `min 6 length` innings.) -/
theorem blowout_iff_lead_kept (l : List InningLine) :
    (∃ a, is_blowout (mkGame l) = .ok (true, a)) ↔
      l ≠ [] ∧ RUN_THRESHOLD ≤ leadThrough l 6 ∧
        ∀ k, 6 < k → k ≤ l.length → RUN_THRESHOLD ≤ leadThrough l k := by
  rw [← isBlowoutPure_fst_true_iff]
  constructor
  · rintro ⟨a, ha⟩
    rw [is_blowout_mkGame] at ha
    have h := Except.ok.inj ha
    rw [h]
  · intro h
    exact ⟨(isBlowoutPure l).2, by
      rw [is_blowout_mkGame,
        show isBlowoutPure l = ((isBlowoutPure l).1, (isBlowoutPure l).2)
          from rfl, h]⟩

/-- Witness for C1: a single 6-0 inning is a blowout. -/
theorem blowout_iff_lead_kept_witness :
    ∃ a, is_blowout (mkGame [⟨some 6, some 0⟩]) = .ok (true, a) :=
  (blowout_iff_lead_kept [⟨some 6, some 0⟩]).mpr
    ⟨List.cons_ne_nil _ _, by decide,
      fun k hk1 hk2 => by simp at hk2; omega⟩

/-- Claim C2: when the through-6 lead meets the threshold and inning `k` is
the first later inning at which the cumulative lead drops below it, the
evaluator returns `(false, analysis)` with `maintained_lead = false`; and
the same result is returned for the first `k` innings followed by anything
whatsoever — the scan short-circuits at the first violating inning and
later innings are never accumulated. -/
theorem violation_shortcircuit (l : List InningLine) (k : Nat)
    (h6 : RUN_THRESHOLD ≤ leadThrough l 6) (hk6 : 6 < k) (hkl : k ≤ l.length)
    (hviol : leadThrough l k < RUN_THRESHOLD)
    (hfirst : ∀ j, 6 < j → j < k → RUN_THRESHOLD ≤ leadThrough l j) :
    is_blowout (mkGame l) =
      .ok (false, mkAnalysis (homeSum (l.take 6)) (awaySum (l.take 6))
        false) ∧
    ∀ rest, is_blowout (mkGame (l.take k ++ rest)) =
      .ok (false, mkAnalysis (homeSum (l.take 6)) (awaySum (l.take 6))
        false) := by
  have hlne : l ≠ [] := by
    intro h0
    rw [h0] at hkl
    simp at hkl
    omega
  have hpne : (l.drop 6).take (k - 6) ≠ [] := by
    intro h0
    have hlen := congrArg List.length h0
    rw [List.length_take, List.length_drop, List.length_nil] at hlen
    omega
  have hscanp : scanOk ((l.drop 6).take (k - 6)) (homeSum (l.take 6))
      (awaySum (l.take 6)) = false := by
    apply scanOk_false_of_viol _ _ _ hpne
    rw [← leadThrough_eq_afterLead l k (by omega)]
    exact hviol
  have key : ∀ rest, is_blowout (mkGame (l.take k ++ rest)) =
      .ok (false, mkAnalysis (homeSum (l.take 6)) (awaySum (l.take 6))
        false) := by
    intro rest
    have hmtake : (l.take k ++ rest).take 6 = l.take 6 := by
      rw [List.take_append_of_le_length (by rw [List.length_take]; omega),
        List.take_take 6 k l, min_eq_left (by omega)]
    have hmdrop : (l.take k ++ rest).drop 6 =
        (l.drop 6).take (k - 6) ++ rest := by
      rw [List.drop_append_of_le_length (by rw [List.length_take]; omega),
        List.drop_take]
    have hmne : l.take k ++ rest ≠ [] := by
      intro h0
      rcases List.append_eq_nil.mp h0 with ⟨ha, -⟩
      rw [List.take_eq_nil_iff] at ha
      rcases ha with h | h
      · omega
      · exact hlne h
    have hmlead : leadThrough (l.take k ++ rest) 6 = leadThrough l 6 := by
      unfold leadThrough; rw [hmtake]
    rw [is_blowout_mkGame,
      isBlowoutPure_scan_false (l.take k ++ rest) hmne
        (by rw [hmlead]; exact h6)
        (by rw [hmdrop, hmtake]; exact scanOk_append_false _ rest _ _ hscanp),
      hmtake]
  refine ⟨?_, key⟩
  have hfull := key (l.drop k)
  rwa [List.take_append_drop] at hfull

/-- Witness for C2: six innings of lead 6, then a 3-run away seventh
inning bringing the lead to 3, is reported not a blowout with
`maintained_lead = false`. -/
theorem violation_shortcircuit_witness :
    is_blowout (mkGame [⟨some 6, some 0⟩, ⟨some 0, some 0⟩, ⟨some 0, some 0⟩,
        ⟨some 0, some 0⟩, ⟨some 0, some 0⟩, ⟨some 0, some 0⟩,
        ⟨some 0, some 3⟩]) =
      .ok (false,
        mkAnalysis
          (homeSum (([⟨some 6, some 0⟩, ⟨some 0, some 0⟩, ⟨some 0, some 0⟩,
            ⟨some 0, some 0⟩, ⟨some 0, some 0⟩, ⟨some 0, some 0⟩,
            ⟨some 0, some 3⟩] : List InningLine).take 6))
          (awaySum (([⟨some 6, some 0⟩, ⟨some 0, some 0⟩, ⟨some 0, some 0⟩,
            ⟨some 0, some 0⟩, ⟨some 0, some 0⟩, ⟨some 0, some 0⟩,
            ⟨some 0, some 3⟩] : List InningLine).take 6))
          false) :=
  (violation_shortcircuit
    [⟨some 6, some 0⟩, ⟨some 0, some 0⟩, ⟨some 0, some 0⟩, ⟨some 0, some 0⟩,
      ⟨some 0, some 0⟩, ⟨some 0, some 0⟩, ⟨some 0, some 3⟩] 7
    (by decide) (by decide) (by decide) (by decide)
    (fun j hj1 hj2 => absurd hj2 (by omega))).1

/-- Claim C3: for every non-empty inning sequence whose through-6 absolute
lead is below the threshold, the evaluator returns `(false, analysis)` with
`maintained_lead = true`, and the result depends only on the first six
innings: any sequence agreeing on its first six innings evaluates to the
same result. -/
theorem low_lead_not_blowout (l : List InningLine) (h1 : l ≠ [])
    (h2 : leadThrough l 6 < RUN_THRESHOLD) :
    is_blowout (mkGame l) =
      .ok (false, mkAnalysis (homeSum (l.take 6)) (awaySum (l.take 6))
        true) ∧
    ∀ l2, l2.take 6 = l.take 6 →
      is_blowout (mkGame l2) = is_blowout (mkGame l) := by
  have key : ∀ m : List InningLine, m.take 6 = l.take 6 →
      is_blowout (mkGame m) =
        .ok (false, mkAnalysis (homeSum (l.take 6)) (awaySum (l.take 6))
          true) := by
    intro m hm
    have hmne : m ≠ [] := by
      intro h0
      rw [h0] at hm
      have hnil : l.take 6 = [] := hm.symm
      rw [List.take_eq_nil_iff] at hnil
      rcases hnil with h | h
      · cases h
      · exact h1 h
    have hmlead : leadThrough m 6 = leadThrough l 6 := by
      unfold leadThrough; rw [hm]
    rw [is_blowout_mkGame,
      isBlowoutPure_low m hmne (by rw [hmlead]; exact h2), hm]
  refine ⟨key l rfl, fun l2 h => ?_⟩
  rw [key l rfl, key l2 h]

/-- Witness for C3: a single 1-0 inning is not a blowout and keeps
`maintained_lead = true`. -/
theorem low_lead_not_blowout_witness :
    is_blowout (mkGame [⟨some 1, some 0⟩]) =
      .ok (false,
        mkAnalysis (homeSum (([⟨some 1, some 0⟩] : List InningLine).take 6))
          (awaySum (([⟨some 1, some 0⟩] : List InningLine).take 6)) true) :=
  (low_lead_not_blowout [⟨some 1, some 0⟩] (List.cons_ne_nil _ _)
    (by decide)).1

/-- Claim C4: for every inning sequence with at least one but fewer than
six innings, the evaluator reports a blowout exactly when the absolute
lead over all available innings meets the threshold, and the analysis
always carries `maintained_lead = true`. -/
theorem short_game_eval (l : List InningLine) (h1 : l ≠ [])
    (h2 : l.length < 6) :
    is_blowout (mkGame l) =
      .ok (decide (RUN_THRESHOLD ≤ leadThrough l l.length),
           mkAnalysis (homeSum l) (awaySum l) true) := by
  have htake : l.take 6 = l := List.take_of_length_le (by omega)
  have htl : l.take l.length = l := List.take_length l
  have hdrop : l.drop 6 = [] := List.drop_eq_nil_of_le (by omega)
  have hll : leadThrough l l.length = leadThrough l 6 := by
    unfold leadThrough; rw [htake, htl]
  by_cases hth : leadThrough l 6 < RUN_THRESHOLD
  · rw [is_blowout_mkGame, isBlowoutPure_low l h1 hth, htake,
      decide_eq_false (not_le.mpr (hll ▸ hth))]
  · have h2' := not_lt.mp hth
    rw [is_blowout_mkGame,
      isBlowoutPure_scan_true l h1 h2' (by rw [hdrop]; rfl), htake,
      decide_eq_true (hll ▸ h2')]

/-- Witness for C4: a one-inning 5-0 game is already a blowout, with
`maintained_lead = true`. -/
theorem short_game_eval_witness :
    is_blowout (mkGame [⟨some 5, some 0⟩]) =
      .ok (decide (RUN_THRESHOLD ≤
            leadThrough [⟨some 5, some 0⟩]
              (List.length [(⟨some 5, some 0⟩ : InningLine)])),
           mkAnalysis (homeSum [⟨some 5, some 0⟩])
             (awaySum [⟨some 5, some 0⟩]) true) :=
  short_game_eval [⟨some 5, some 0⟩] (List.cons_ne_nil _ _) (by decide)

/-- Counterexample to claim C5 as stated: on the input
`{"linescore": {"innings": [5]}}` — a wrong-typed inning entry — the
evaluator raises an `AttributeError` (`5 .get` does not exist), which
`except (KeyError, TypeError)` does not catch, so the error propagates to
the caller instead of yielding `(False, {})`. -/
theorem uncaught_attribute_error_cex :
    is_blowout gBadInning = Except.error PyErr.attributeError ∧
      is_blowout gBadInning ≠ Except.ok (false, JVal.obj []) := by
  refine ⟨rfl, fun h => ?_⟩
  exact absurd (congrArg emptyAnalysisResult h) (by decide)

/-- Claim C5, amended: structural errors surfacing as `KeyError` or
`TypeError` are caught inside the evaluator, which then returns
`(false, {})`; those are the only exception kinds caught, so the only
exception that can escape the evaluator is an `AttributeError` (raised by
reading a field of a wrong-typed, non-dictionary value). -/
theorem only_attribute_error_escapes :
    (∀ g e, is_blowout g = Except.error e → e = PyErr.attributeError) ∧
      ∀ g, (is_blowout_body g = Except.error PyErr.keyError ∨
            is_blowout_body g = Except.error PyErr.typeError) →
        is_blowout g = Except.ok (false, JVal.obj []) := by
  constructor
  · intro g e h
    rw [is_blowout] at h
    split at h
    · exact Except.noConfusion h
    · exact Except.noConfusion h
    · rename_i heq h1 h2
      rcases hb : is_blowout_body g with e' | r
      · rw [hb] at h
        have he := Except.error.inj h
        cases e' with
        | keyError => exact absurd hb h1
        | typeError => exact absurd hb h2
        | attributeError => exact he.symm
      · rw [hb] at h
        exact Except.noConfusion h
  · intro g hg
    rw [is_blowout]
    rcases hg with h | h <;> rw [h]

/-- Witness for the amended C5: `{"linescore": {"innings": 3}}` raises a
`TypeError` when sliced; the evaluator catches it and returns
`(False, {})`. -/
theorem only_attribute_error_escapes_witness :
    is_blowout gBadInnings = Except.ok (false, JVal.obj []) :=
  only_attribute_error_escapes.2 gBadInnings (Or.inr rfl)

/-- Counterexample to claim C6 as stated: a malformed (string-valued)
`runs` field is not treated as zero. On
`{"linescore": {"innings": [{"home": {"runs": "7"}, "away":
{"runs": 0}}]}}` the evaluator hits a `TypeError` in the through-6 sum and
returns `(False, {})`, while the explicit-zero version of the same inning
returns `(False, analysis)` with a populated analysis record — the results
differ. -/
theorem malformed_runs_not_zero_cex :
    is_blowout gMalformedRuns ≠ is_blowout (mkGame [⟨some 0, some 0⟩]) := by
  intro h
  exact absurd (congrArg emptyAnalysisResult h) (by decide)

/-- Claim C6, amended: a missing per-inning run field for a team (the
team's entry absent from the inning dictionary) is treated as zero runs
for that team and inning — in the through-6 accumulation and in the post-6
scan alike — and the evaluator computes exactly the same result as if the
field were an explicit 0; malformed (wrong-typed) run values, however,
take the error path instead. -/
theorem missing_fields_as_zero (l : List InningLine) :
    is_blowout (mkGame (l.map fillZeros)) = is_blowout (mkGame l) := by
  rw [is_blowout_mkGame, is_blowout_mkGame]
  unfold isBlowoutPure
  rw [show (l.map fillZeros).take 6 = (l.take 6).map fillZeros by
        rw [← List.map_take],
      show (l.map fillZeros).drop 6 = (l.drop 6).map fillZeros by
        rw [← List.map_drop],
      mapFill_isEmpty]
  simp only [homeSum_fill, awaySum_fill, scanOk_fill]

/-- Witness for the amended C6: an inning with no home entry evaluates as
if home had scored an explicit 0. -/
theorem missing_fields_as_zero_witness :
    is_blowout (mkGame ([⟨none, some 1⟩].map fillZeros)) =
      is_blowout (mkGame [⟨none, some 1⟩]) :=
  missing_fields_as_zero [⟨none, some 1⟩]

/-- Claim C7: for a scheduled game whose coded status is not `"F"`
(final), the loop body persists a summary with status `"In Progress"`,
`is_blowout = false` and an empty analysis record, and neither fetches the
per-game detail feed nor invokes the Blowout Evaluator. -/
theorem not_final_no_detail (fetch : JVal → Option JVal) (date : String)
    (pk an hn asc hsc coded : JVal) (hpk : pyTruthy pk = true)
    (hcoded : isFinalCode coded = false) :
    processGame fetch date (mkScheduleGame pk an hn asc hsc coded) =
      .ok ⟨some ⟨pk, date, an, hn, asc, hsc, "In Progress", false, .obj []⟩,
        false, false⟩ := by
  simp [processGame, mkScheduleGame, Bind.bind, Except.bind, pyGet,
    getTeamName, getTeamScore, getGameStatus, List.lookup, hpk, hcoded]

/-- Witness for C7: a concrete in-progress game is persisted as
"In Progress" with no detail fetch and no evaluator call. -/
theorem not_final_no_detail_witness :
    processGame (fun _ => none) "2025-03-27"
        (mkScheduleGame (.num 1) (.str "Mets") (.str "Yankees") (.num 2)
          (.num 3) (.str "I")) =
      .ok ⟨some ⟨.num 1, "2025-03-27", .str "Mets", .str "Yankees", .num 2,
        .num 3, "In Progress", false, .obj []⟩, false, false⟩ :=
  not_final_no_detail (fun _ => none) "2025-03-27" (.num 1) (.str "Mets")
    (.str "Yankees") (.num 2) (.num 3) (.str "I") rfl rfl

/-- Claim C8: for the empty inning sequence the evaluator returns
`(false, {})`. -/
theorem empty_innings_eval : is_blowout (mkGame []) = .ok (false, .obj []) :=
  rfl

/-- Claim C9: whenever the evaluator returns a non-empty analysis record,
the record is internally consistent: `through_6_lead` is the absolute
difference of `through_6_home` and `through_6_away`, and when the boolean
result is `true` the record's `maintained_lead` is `true`. -/
theorem analysis_internal_consistency (g : JVal) (b : Bool) (a : JVal)
    (h : is_blowout g = .ok (b, a)) (ha : a ≠ .obj []) :
    (∃ ch ca, aField a "through_6_home" = some (.num ch) ∧
        aField a "through_6_away" = some (.num ca) ∧
        aField a "through_6_lead" = some (.num |ch - ca|)) ∧
      (b = true → aField a "maintained_lead" = some (.bool true)) := by
  rw [is_blowout] at h
  split at h
  · simp only [Except.ok.injEq, Prod.mk.injEq] at h
    exact absurd h.2.symm ha
  · simp only [Except.ok.injEq, Prod.mk.injEq] at h
    exact absurd h.2.symm ha
  · rcases is_blowout_body_shape g b a h with ⟨hb, hao⟩ | ⟨ch, ca, m, ham, hm⟩
    · exact absurd hao ha
    · subst ham
      refine ⟨⟨ch, ca, aField_home ch ca m, aField_away ch ca m,
        aField_lead ch ca m⟩, fun hbt => ?_⟩
      rw [aField_maintained, hm hbt]

/-- Witness for C9: the 6-0 single-inning blowout carries a consistent
analysis record. -/
theorem analysis_internal_consistency_witness :
    (∃ ch ca,
        aField (mkAnalysis 6 0 true) "through_6_home" = some (.num ch) ∧
        aField (mkAnalysis 6 0 true) "through_6_away" = some (.num ca) ∧
        aField (mkAnalysis 6 0 true) "through_6_lead" =
          some (.num |ch - ca|)) ∧
      (true = true → aField (mkAnalysis 6 0 true) "maintained_lead" =
        some (.bool true)) :=
  analysis_internal_consistency (mkGame [⟨some 6, some 0⟩]) true
    (mkAnalysis 6 0 true) rfl (mkAnalysis_ne_empty 6 0 true)

/-- Claim C10: two sequences of at least six innings that agree on their
first six innings produce analysis records with identical
`through_6_home`, `through_6_away` and `through_6_lead` fields — the
post-6 scan never changes the through-6 fields. -/
theorem through6_fields_frame (l1 l2 : List InningLine) (h1 : 6 ≤ l1.length)
    (h2 : 6 ≤ l2.length) (heq : l1.take 6 = l2.take 6) (b1 b2 : Bool)
    (a1 a2 : JVal) (e1 : is_blowout (mkGame l1) = .ok (b1, a1))
    (e2 : is_blowout (mkGame l2) = .ok (b2, a2)) :
    aField a1 "through_6_home" = aField a2 "through_6_home" ∧
      aField a1 "through_6_away" = aField a2 "through_6_away" ∧
      aField a1 "through_6_lead" = aField a2 "through_6_lead" := by
  have hn1 : l1 ≠ [] := by intro h0; rw [h0] at h1; simp at h1
  have hn2 : l2 ≠ [] := by intro h0; rw [h0] at h2; simp at h2
  rw [is_blowout_mkGame] at e1 e2
  have hv1 := Except.ok.inj e1
  have hv2 := Except.ok.inj e2
  obtain ⟨m1, hm1⟩ := isBlowoutPure_snd l1 hn1
  obtain ⟨m2, hm2⟩ := isBlowoutPure_snd l2 hn2
  have ha1 : a1 = mkAnalysis (homeSum (l1.take 6)) (awaySum (l1.take 6))
      m1 := by
    rw [← hm1]
    exact (congrArg Prod.snd hv1).symm
  have ha2 : a2 = mkAnalysis (homeSum (l2.take 6)) (awaySum (l2.take 6))
      m2 := by
    rw [← hm2]
    exact (congrArg Prod.snd hv2).symm
  rw [ha1, ha2, heq]
  exact ⟨rfl, rfl, rfl⟩

/-- Witness for C10: a six-inning blowout and its seven-inning extension
whose last inning spoils the lead share the same through-6 analysis
fields even though their boolean results differ. -/
theorem through6_fields_frame_witness :
    aField (mkAnalysis 6 0 true) "through_6_home" =
        aField (mkAnalysis 6 0 false) "through_6_home" ∧
      aField (mkAnalysis 6 0 true) "through_6_away" =
        aField (mkAnalysis 6 0 false) "through_6_away" ∧
      aField (mkAnalysis 6 0 true) "through_6_lead" =
        aField (mkAnalysis 6 0 false) "through_6_lead" :=
  through6_fields_frame
    [⟨some 1, some 0⟩, ⟨some 1, some 0⟩, ⟨some 1, some 0⟩, ⟨some 1, some 0⟩,
      ⟨some 1, some 0⟩, ⟨some 1, some 0⟩]
    [⟨some 1, some 0⟩, ⟨some 1, some 0⟩, ⟨some 1, some 0⟩, ⟨some 1, some 0⟩,
      ⟨some 1, some 0⟩, ⟨some 1, some 0⟩, ⟨some 0, some 5⟩]
    (by decide) (by decide) rfl true false (mkAnalysis 6 0 true)
    (mkAnalysis 6 0 false) rfl rfl
